import Mathlib

/-!
# Verification of the schema type-system validator (`src/type/validate.js`)

A shallow embedding of the validator: the GraphQL type/schema data model
(modelled from the spec, §3, since `definition.js`/`schema.js` are not part of
the sources), the diagnostic sink, the node locator, the root-type, directive
and type-registry checks, the interface conformance checker, the validator
entry point with its per-schema memoization, and the assert wrapper.
JavaScript mutation of the context is rendered as explicit state passing of
the accumulated error list; thrown usage errors become `Except.error`.
-/

namespace GraphQLValidate

/-- Syntax tree nodes, restricted to the shapes the validator touches:
named-type references (`implements` entries), type nodes of fields and
arguments, input value (argument) definitions, field definitions,
object/interface type definitions carrying `interfaces` and `fields`,
operation type definitions, and schema definitions. -/
inductive ASTNode where
  | namedType (nameValue : String)
  | typeNode (repr : String)
  | inputValueDef (nameValue : String) (type : ASTNode)
  | fieldDef (nameValue : String) (arguments : List ASTNode) (type : ASTNode)
  | objectTypeDef (interfaces : List ASTNode) (fields : List ASTNode)
  | operationTypeDef (operation : String) (type : ASTNode)
  | schemaDef (operationTypes : List ASTNode)

mutual

/-- Modelled from the spec: the Type data model (§3) — variants Scalar,
Object, Interface, Union, Enum, InputObject, List, NonNull; Object and
Interface carry a name, an ordered field list, and declaration occurrences
(primary `astNode` plus `extensionASTNodes`); Object carries its
implemented-interface references, Union its member types.
(`definition.js` is external to the given sources.) -/
inductive GType where
  | scalar (name : String)
  | enum (name : String)
  | inputObject (name : String)
  | union (name : String) (types : List GType)
  | object (name : String) (fields : List GField) (interfaces : List GType)
      (astNode : Option ASTNode) (extensionASTNodes : List ASTNode)
  | iface (name : String) (fields : List GField)
      (astNode : Option ASTNode) (extensionASTNodes : List ASTNode)
  | list (ofType : GType)
  | nonNull (ofType : GType)

/-- Modelled from the spec: a Field — name, declared type, ordered argument
list (§3). -/
inductive GField where
  | mk (name : String) (type : GType) (args : List GArg)

/-- Modelled from the spec: an Argument — name and declared type (§3). -/
inductive GArg where
  | mk (name : String) (type : GType)

end

mutual

/-- Structural equality of syntax nodes. -/
def beqASTNode : ASTNode → ASTNode → Bool
  | .namedType a, .namedType b => a == b
  | .typeNode a, .typeNode b => a == b
  | .inputValueDef a ta, .inputValueDef b tb => a == b && beqASTNode ta tb
  | .fieldDef a aas ta, .fieldDef b bas tb =>
      a == b && beqASTNodeList aas bas && beqASTNode ta tb
  | .objectTypeDef ai af, .objectTypeDef bi bf =>
      beqASTNodeList ai bi && beqASTNodeList af bf
  | .operationTypeDef ao ta, .operationTypeDef bo tb => ao == bo && beqASTNode ta tb
  | .schemaDef aops, .schemaDef bops => beqASTNodeList aops bops
  | _, _ => false

/-- Structural equality of syntax node lists. -/
def beqASTNodeList : List ASTNode → List ASTNode → Bool
  | [], [] => true
  | x :: xs, y :: ys => beqASTNode x y && beqASTNodeList xs ys
  | _, _ => false

end

/-- Structural equality of optional syntax nodes. -/
def beqASTNodeOpt : Option ASTNode → Option ASTNode → Bool
  | none, none => true
  | some a, some b => beqASTNode a b
  | _, _ => false

mutual

/-- Structural equality of type descriptions, down through wrappers, fields
and arguments. -/
def beqGType : GType → GType → Bool
  | .scalar a, .scalar b => a == b
  | .enum a, .enum b => a == b
  | .inputObject a, .inputObject b => a == b
  | .union a ats, .union b bts => a == b && beqGTypeList ats bts
  | .object a afs ais aa ae, .object b bfs bis ba be =>
      a == b && beqGFieldList afs bfs && beqGTypeList ais bis &&
        beqASTNodeOpt aa ba && beqASTNodeList ae be
  | .iface a afs aa ae, .iface b bfs ba be =>
      a == b && beqGFieldList afs bfs && beqASTNodeOpt aa ba && beqASTNodeList ae be
  | .list a, .list b => beqGType a b
  | .nonNull a, .nonNull b => beqGType a b
  | _, _ => false

/-- Structural equality of type lists. -/
def beqGTypeList : List GType → List GType → Bool
  | [], [] => true
  | x :: xs, y :: ys => beqGType x y && beqGTypeList xs ys
  | _, _ => false

/-- Structural equality of fields. -/
def beqGField : GField → GField → Bool
  | .mk a ta aas, .mk b tb bas => a == b && beqGType ta tb && beqGArgList aas bas

/-- Structural equality of field lists. -/
def beqGFieldList : List GField → List GField → Bool
  | [], [] => true
  | x :: xs, y :: ys => beqGField x y && beqGFieldList xs ys
  | _, _ => false

/-- Structural equality of arguments. -/
def beqGArg : GArg → GArg → Bool
  | .mk a ta, .mk b tb => a == b && beqGType ta tb

/-- Structural equality of argument lists. -/
def beqGArgList : List GArg → List GArg → Bool
  | [], [] => true
  | x :: xs, y :: ys => beqGArg x y && beqGArgList xs ys
  | _, _ => false

end

/-- Accessor for `node.name.value` — the name carried by a syntax node, when it has one. -/
def ASTNode.nameValueOf : ASTNode → Option String
  | .namedType v => some v
  | .inputValueDef v _ => some v
  | .fieldDef v _ _ => some v
  | _ => none

/-- Accessor for `astNode.interfaces` — the interface-reference nodes of a type
definition node (absent on other node kinds). -/
def ASTNode.interfacesOf : ASTNode → Option (List ASTNode)
  | .objectTypeDef ifs _ => some ifs
  | _ => none

/-- Accessor for `astNode.fields` — the field-definition nodes of a type definition node
(absent on other node kinds). -/
def ASTNode.fieldsOf : ASTNode → Option (List ASTNode)
  | .objectTypeDef _ fs => some fs
  | _ => none

/-- Accessor for `fieldNode.arguments` — the argument nodes of a field definition node. -/
def ASTNode.argumentsOf : ASTNode → Option (List ASTNode)
  | .fieldDef _ args _ => some args
  | _ => none

/-- Accessor for `node.type` — the type sub-node of a field or argument definition node,
or of an operation type definition node. -/
def ASTNode.typeOf : ASTNode → Option ASTNode
  | .inputValueDef _ t => some t
  | .fieldDef _ _ t => some t
  | .operationTypeDef _ t => some t
  | _ => none

def ASTNode.operationTypesOf : ASTNode → List ASTNode
  | .schemaDef ops => ops
  | _ => []

def ASTNode.operationOf : ASTNode → Option String
  | .operationTypeDef op _ => some op
  | _ => none

def GField.name : GField → String
  | .mk n _ _ => n

def GField.type : GField → GType
  | .mk _ t _ => t

def GField.args : GField → List GArg
  | .mk _ _ as_ => as_

def GArg.name : GArg → String
  | .mk n _ => n

def GArg.type : GArg → GType
  | .mk _ t => t

/-- Accessor for `type.name` — the name of a named type; List/NonNull wrappers carry no
`name` property, which JavaScript reads as `undefined`. -/
def GType.nameOf : GType → String
  | .scalar n => n
  | .enum n => n
  | .inputObject n => n
  | .union n _ => n
  | .object n _ _ _ _ => n
  | .iface n _ _ _ => n
  | .list _ => "undefined"
  | .nonNull _ => "undefined"

/-- Accessor for `type.astNode` — per the spec's data model only Object and Interface
variants carry declaration occurrences. -/
def GType.astNodeOf : GType → Option ASTNode
  | .object _ _ _ a _ => a
  | .iface _ _ a _ => a
  | _ => none

/-- Accessor for `type.extensionASTNodes` (defaulting to the empty list when absent, as
the source's `type.extensionASTNodes || []` does). -/
def GType.extensionASTNodesOf : GType → List ASTNode
  | .object _ _ _ _ e => e
  | .iface _ _ _ e => e
  | _ => []

/-- Accessor for `type.getFields()` — the ordered field collection of an Object or
Interface type. -/
def GType.fieldsOf : GType → List GField
  | .object _ fs _ _ _ => fs
  | .iface _ fs _ _ => fs
  | _ => []

/-- Accessor for `type.getInterfaces()` — the implemented-interface references of an
Object type. -/
def GType.interfacesOf : GType → List GType
  | .object _ _ ifs _ _ => ifs
  | _ => []

/-- Test `type instanceof GraphQLObjectType`. -/
def GType.isObjectType : GType → Bool
  | .object _ _ _ _ _ => true
  | _ => false

/-- Test `type instanceof GraphQLInterfaceType`. -/
def GType.isInterfaceType : GType → Bool
  | .iface _ _ _ _ => true
  | _ => false

/-- Test `type instanceof GraphQLNonNull`. -/
def GType.isNonNullType : GType → Bool
  | .nonNull _ => true
  | _ => false

/-- Rendering `String(type)` — the rendered name of a type: the bare name for named
types, `[T]` for lists, `T!` for non-nulls. -/
def GType.toStr : GType → String
  | .scalar n => n
  | .enum n => n
  | .inputObject n => n
  | .union n _ => n
  | .object n _ _ _ _ => n
  | .iface n _ _ _ => n
  | .list t => "[" ++ GType.toStr t ++ "]"
  | .nonNull t => GType.toStr t ++ "!"

/-- Modelled from the spec: a Directive value in the schema's directive list
— either a bona fide Directive, or a foreign/incompatible value caught by the
Directive Sanity Checker (`directives.js` is external to the given sources). -/
inductive DirectiveValue where
  | directive (name : String) (astNode : Option ASTNode)
  | foreign (repr : String) (astNode : Option ASTNode)

/-- Modelled from the spec: a value of the schema's name→Type map — either a
recognized Type variant (`isType` true), or a foreign value that fails the
`isType` check. -/
inductive TypeMapValue where
  | type (t : GType)
  | notType (repr : String) (astNode : Option ASTNode)

/-- A produced diagnostic: message plus the associated nodes, kept as they
were passed to the sink (optional, since node arguments may be absent). -/
structure GraphQLError where
  message : String
  nodes : List (Option ASTNode)

/-- The `nodes` parameter of `reportError`: a single (possibly absent) node,
or an array of (possibly absent) nodes. -/
inductive NodeArg where
  | one (node : Option ASTNode)
  | many (nodes : List (Option ASTNode))

/-- The sink method `SchemaValidationContext.prototype.reportError`: coerce a single node to
a one-element array, keep an array as is, drop the absent (falsy) entries,
and push the resulting diagnostic. The mutable `_errors` array is threaded
explicitly as the first argument and the result. -/
def reportError (context : List GraphQLError) (message : String) (nodes : NodeArg) :
    List GraphQLError :=
  let raw := match nodes with
    | .one n => [n]
    | .many ns => ns
  context ++ [{ message := message, nodes := raw.filter (·.isSome) }]

/-- Modelled from the spec: the Schema value — root operation type slots,
directive list, name→Type map, optional declaration syntax, and the slot the
validator caches its result in (`schema.js` is external to the given
sources). -/
structure GraphQLSchema where
  queryType : Option GType
  mutationType : Option GType
  subscriptionType : Option GType
  directives : List DirectiveValue
  typeMap : List (String × TypeMapValue)
  astNode : Option ASTNode
  __validationErrors : Option (List GraphQLError)

/-- Modelled from the spec: `isEqualType(a, b)` — structural equality over
type descriptions, including wrapper nesting (`typeComparators.js` is
external to the given sources). -/
def isEqualType (typeA typeB : GType) : Bool :=
  beqGType typeA typeB

/-- Modelled from the spec: the abstract-type clause of the subtype oracle —
an Object type may be used where an Interface it implements, or a Union it
is a member of, is expected. -/
def isPossibleSubType : GType → GType → Bool
  | candidate, .iface n _ _ _ =>
      candidate.isObjectType && candidate.interfacesOf.any (fun t => t.nameOf == n)
  | candidate, .union _ members =>
      candidate.isObjectType && members.any (fun t => isEqualType t candidate)
  | _, _ => false

/-- Modelled from the spec: the subtype oracle
`isSubtype(schema, candidate, required)` — true iff `candidate` may be used
wherever `required` is expected: identical types, List/NonNull wrapper
compatibility (a NonNull candidate also satisfies a nullable requirement),
and Object-implements-Interface / member-of-Union relationships; anything
else is false (`typeComparators.js` is external to the given sources). -/
def isTypeSubTypeOf (schema : GraphQLSchema) : GType → GType → Bool
  | maybeSubType, superType =>
    if isEqualType maybeSubType superType then true
    else
      match maybeSubType, superType with
      | .nonNull a, .nonNull b => isTypeSubTypeOf schema a b
      | _, .nonNull _ => false
      | .nonNull a, b => isTypeSubTypeOf schema a b
      | .list a, .list b => isTypeSubTypeOf schema a b
      | _, .list _ => false
      | .list _, _ => false
      | a, b => isPossibleSubType a b

/-- Locator `getOperationTypeNode`: the syntax node for one root-operation-type
reference of the schema, falling back to the type's own declaration. -/
def getOperationTypeNode (schema : GraphQLSchema) (type : GType) (operation : String) :
    Option ASTNode :=
  let operationTypeNode := schema.astNode.bind fun astNode =>
    astNode.operationTypesOf.find? fun operationType =>
      operationType.operationOf == some operation
  match operationTypeNode with
  | some n => n.typeOf
  | none => type.astNodeOf

/-- Locator `getAllImplementsInterfaceNode`: every interface-reference syntax node
named after `iface`, across the primary declaration and all extensions. -/
def getAllImplementsInterfaceNode (type iface : GType) : List ASTNode :=
  let astNodes : List (Option ASTNode) := type.astNodeOf :: type.extensionASTNodesOf.map some
  astNodes.foldl
    (fun implementsNodes astNode =>
      match astNode with
      | some a =>
        match a.interfacesOf with
        | some ifs =>
            implementsNodes ++ ifs.filter (fun node => node.nameValueOf == some iface.nameOf)
        | none => implementsNodes
      | none => implementsNodes)
    []

/-- Locator `getImplementsInterfaceNode`: the first such node, when any exists. -/
def getImplementsInterfaceNode (type iface : GType) : Option ASTNode :=
  (getAllImplementsInterfaceNode type iface).head?

/-- Locator `getFieldNode`: first field-definition syntax node with the given name,
searching the primary declaration then the extensions. -/
def getFieldNode (type : GType) (fieldName : String) : Option ASTNode :=
  let astNodes : List (Option ASTNode) := type.astNodeOf :: type.extensionASTNodesOf.map some
  astNodes.findSome? fun astNode =>
    astNode.bind fun a =>
      (a.fieldsOf.getD []).find? fun node => node.nameValueOf == some fieldName

/-- Locator `getFieldTypeNode`: the type sub-node of the located field node. -/
def getFieldTypeNode (type : GType) (fieldName : String) : Option ASTNode :=
  (getFieldNode type fieldName).bind ASTNode.typeOf

/-- Locator `getFieldArgNode`: the argument sub-node of the located field node. -/
def getFieldArgNode (type : GType) (fieldName argName : String) : Option ASTNode :=
  (getFieldNode type fieldName).bind fun fieldNode =>
    (fieldNode.argumentsOf.getD []).find? fun node => node.nameValueOf == some argName

/-- Locator `getFieldArgTypeNode`: the type sub-node of the located argument node. -/
def getFieldArgTypeNode (type : GType) (fieldName argName : String) : Option ASTNode :=
  (getFieldArgNode type fieldName argName).bind ASTNode.typeOf

/-- Checker `validateRootTypes`: the query slot must be present and an Object type;
the mutation and subscription slots must be Object types when present. -/
def validateRootTypes (context : List GraphQLError) (schema : GraphQLSchema) :
    List GraphQLError :=
  let context :=
    match schema.queryType with
    | none => reportError context "Query root type must be provided." (.one schema.astNode)
    | some queryType =>
      if queryType.isObjectType then context
      else
        reportError context
          ("Query root type must be Object type but got: " ++ queryType.toStr ++ ".")
          (.one (getOperationTypeNode schema queryType "query"))
  let context :=
    match schema.mutationType with
    | none => context
    | some mutationType =>
      if mutationType.isObjectType then context
      else
        reportError context
          ("Mutation root type must be Object type if provided but got: " ++
            mutationType.toStr ++ ".")
          (.one (getOperationTypeNode schema mutationType "mutation"))
  match schema.subscriptionType with
  | none => context
  | some subscriptionType =>
    if subscriptionType.isObjectType then context
    else
      reportError context
        ("Subscription root type must be Object type if provided but got: " ++
          subscriptionType.toStr ++ ".")
        (.one (getOperationTypeNode schema subscriptionType "subscription"))

/-- Checker `validateDirectives`: each entry of the directive list must be a genuine
Directive value. -/
def validateDirectives (context : List GraphQLError) (schema : GraphQLSchema) :
    List GraphQLError :=
  schema.directives.foldl
    (fun context directive =>
      match directive with
      | .directive _ _ => context
      | .foreign repr astNode =>
          reportError context ("Expected directive but got: " ++ repr ++ ".") (.one astNode))
    context

/-- The `ifaceField.args.forEach` body of
`validateObjectImplementsInterface`: the object field must declare an
identically-named argument, and its type must be exactly equal (invariant)
to the interface argument's type. -/
def checkIfaceArg (context : List GraphQLError) (object : GType) (objectField : GField)
    (iface : GType) (fieldName : String) (ifaceArg : GArg) : List GraphQLError :=
  let argName := ifaceArg.name
  match objectField.args.find? (fun arg => arg.name == argName) with
  | none =>
      reportError context
        (iface.nameOf ++ "." ++ fieldName ++ " expects argument \"" ++ argName ++ "\" but " ++
          object.nameOf ++ "." ++ fieldName ++ " does not provide it.")
        (.many [getFieldArgNode iface fieldName argName, getFieldNode object fieldName])
  | some objectArg =>
      if isEqualType ifaceArg.type objectArg.type then context
      else
        reportError context
          (iface.nameOf ++ "." ++ fieldName ++ "(" ++ argName ++ ":) expects type \"" ++
            ifaceArg.type.toStr ++ "\" but " ++ object.nameOf ++ "." ++ fieldName ++ "(" ++
            argName ++ ":) is type \"" ++ objectArg.type.toStr ++ "\".")
          (.many [getFieldArgTypeNode iface fieldName argName,
            getFieldArgTypeNode object fieldName argName])

/-- The `objectField.args.forEach` body of
`validateObjectImplementsInterface`: an extra argument that the interface
field does not declare must not be of required (NonNull) type. -/
def checkObjectArg (context : List GraphQLError) (object : GType) (iface : GType)
    (ifaceField : GField) (fieldName : String) (objectArg : GArg) : List GraphQLError :=
  let argName := objectArg.name
  match ifaceField.args.find? (fun arg => arg.name == argName) with
  | some _ => context
  | none =>
      if objectArg.type.isNonNullType then
        reportError context
          (object.nameOf ++ "." ++ fieldName ++ "(" ++ argName ++ ":) is of required type \"" ++
            objectArg.type.toStr ++ "\" but is not also provided by the interface " ++
            iface.nameOf ++ "." ++ fieldName ++ ".")
          (.many [getFieldArgTypeNode object fieldName argName, getFieldNode iface fieldName])
      else context

/-- The `Object.keys(ifaceFieldMap).forEach` body of
`validateObjectImplementsInterface`: the object must provide the field; when
it does, the field's type must be a subtype (covariant) of the interface
field's type, every interface argument must be matched invariantly, and
extra object arguments must not be required. -/
def checkIfaceField (context : List GraphQLError) (schema : GraphQLSchema) (object : GType)
    (iface : GType) (ifaceField : GField) : List GraphQLError :=
  let fieldName := ifaceField.name
  match object.fieldsOf.find? (fun f => f.name == fieldName) with
  | none =>
      reportError context
        ("\"" ++ iface.nameOf ++ "\" expects field \"" ++ fieldName ++ "\" but \"" ++
          object.nameOf ++ "\" does not provide it.")
        (.many [getFieldNode iface fieldName, object.astNodeOf])
  | some objectField =>
      let context :=
        if isTypeSubTypeOf schema objectField.type ifaceField.type then context
        else
          reportError context
            (iface.nameOf ++ "." ++ fieldName ++ " expects type \"" ++ ifaceField.type.toStr ++
              "\" but " ++ object.nameOf ++ "." ++ fieldName ++ " is type \"" ++
              objectField.type.toStr ++ "\".")
            (.many [getFieldTypeNode iface fieldName, getFieldTypeNode object fieldName])
      let context := ifaceField.args.foldl
        (fun context ifaceArg => checkIfaceArg context object objectField iface fieldName ifaceArg)
        context
      objectField.args.foldl
        (fun context objectArg => checkObjectArg context object iface ifaceField fieldName objectArg)
        context

/-- Checker `validateObjectImplementsInterface`: a claimed interface must be an
Interface-kind type; when it is, every interface field is checked against
the object via `checkIfaceField`. -/
def validateObjectImplementsInterface (context : List GraphQLError) (schema : GraphQLSchema)
    (object : GType) (iface : GType) : List GraphQLError :=
  if !iface.isInterfaceType then
    reportError context
      (object.toStr ++ " must only implement Interface types, it cannot implement " ++
        iface.toStr ++ ".")
      (.one (getImplementsInterfaceNode object iface))
  else
    iface.fieldsOf.foldl
      (fun context ifaceField => checkIfaceField context schema object iface ifaceField)
      context

/-- The `type.getInterfaces().forEach` body of `validateTypes`, with the
closed-over `implementedTypeNames` record threaded explicitly: a duplicate
name is diagnosed, then — unconditionally — the name is recorded and the
conformance checker is invoked. -/
def implementsLoop (context : List GraphQLError) (schema : GraphQLSchema) (type : GType)
    (ifaces : List GType) (implementedTypeNames : List String) : List GraphQLError :=
  match ifaces with
  | [] => context
  | iface :: rest =>
    let context :=
      if implementedTypeNames.contains iface.nameOf then
        reportError context
          (type.nameOf ++ " must declare it implements " ++ iface.nameOf ++ " only once.")
          (.many ((getAllImplementsInterfaceNode type iface).map some))
      else context
    let context := validateObjectImplementsInterface context schema type iface
    implementsLoop context schema type rest (iface.nameOf :: implementedTypeNames)

/-- Checker `validateTypes`: every type-map entry must be a genuine Type; every
Object-kind entry has its implemented interfaces walked. -/
def validateTypes (context : List GraphQLError) (schema : GraphQLSchema) :
    List GraphQLError :=
  schema.typeMap.foldl
    (fun context entry =>
      let type := entry.2
      let context :=
        match type with
        | .type _ => context
        | .notType repr astNode =>
            reportError context ("Expected GraphQL type but got: " ++ repr ++ ".") (.one astNode)
      match type with
      | .type t =>
          if t.isObjectType then implementsLoop context schema t t.interfacesOf []
          else context
      | .notType _ _ => context)
    context

/-- The input of `validateSchema`, distinguishing a genuine `GraphQLSchema`
instance from the rejected inputs: an absent value, a look-alike whose
prototype's constructor is also named `GraphQLSchema` (cross-realm), or any
other value. -/
inductive SchemaInput where
  | schema (s : GraphQLSchema)
  | absent
  | lookAlike (repr : String)
  | otherValue (repr : String)

/-- The usage-error message for a cross-realm `GraphQLSchema` look-alike. -/
def crossRealmMessage : String :=
  "Cannot use a GraphQLSchema from another module or realm.\n\nEnsure that there is only one instance of \"graphql\" in the node_modules\ndirectory. If different versions of \"graphql\" are the dependencies of other\nrelied on modules, use \"resolutions\" to ensure only one version is installed.\n\nhttps://yarnpkg.com/en/docs/selective-version-resolutions\n\nDuplicate \"graphql\" modules cannot be used at the same time since different\nversions may have different capabilities and behavior. The data from one\nversion used in the function from another could produce confusing and\nspurious results."

/-- Entry point `validateSchema`: reject a non-Schema input with a thrown usage error
(`Except.error`); return the cached diagnostic list when present; otherwise
run the three checks in order against a fresh context, cache and return the
result. The cache mutation is rendered by returning the updated schema. -/
def validateSchema (schema : SchemaInput) :
    Except String (List GraphQLError × GraphQLSchema) :=
  match schema with
  | .absent => .error "Must provide schema."
  | .lookAlike _ => .error crossRealmMessage
  | .otherValue repr =>
      .error ("Schema must be an instance of GraphQLSchema. Received: " ++ repr)
  | .schema s =>
    match s.__validationErrors with
    | some errors => .ok (errors, s)
    | none =>
      let context := ([] : List GraphQLError)
      let context := validateRootTypes context s
      let context := validateDirectives context s
      let errors := validateTypes context s
      .ok (errors, { s with __validationErrors := some errors })

/-- Wrapper `assertValidSchema`: run `validateSchema` and throw the diagnostics'
messages joined by blank lines when any were produced. -/
def assertValidSchema (schema : SchemaInput) : Except String GraphQLSchema :=
  match validateSchema schema with
  | .error e => .error e
  | .ok (errors, s) =>
    if errors.length != 0 then
      .error (String.intercalate "\n\n" (errors.map (fun error => error.message)))
    else .ok s

/-- The three checks of a fresh validation run, in the entry point's fixed
order, against a fresh (empty) sink. -/
def runChecks (schema : GraphQLSchema) : List GraphQLError :=
  validateTypes (validateDirectives (validateRootTypes [] schema) schema) schema

/-- The first block of `validateRootTypes` (query slot), on its own. -/
def checkQueryRootType (context : List GraphQLError) (schema : GraphQLSchema) :
    List GraphQLError :=
  match schema.queryType with
  | none => reportError context "Query root type must be provided." (.one schema.astNode)
  | some queryType =>
    if queryType.isObjectType then context
    else
      reportError context
        ("Query root type must be Object type but got: " ++ queryType.toStr ++ ".")
        (.one (getOperationTypeNode schema queryType "query"))

/-- The second block of `validateRootTypes` (mutation slot), on its own. -/
def checkMutationRootType (context : List GraphQLError) (schema : GraphQLSchema) :
    List GraphQLError :=
  match schema.mutationType with
  | none => context
  | some mutationType =>
    if mutationType.isObjectType then context
    else
      reportError context
        ("Mutation root type must be Object type if provided but got: " ++
          mutationType.toStr ++ ".")
        (.one (getOperationTypeNode schema mutationType "mutation"))

/-- The third block of `validateRootTypes` (subscription slot), on its own. -/
def checkSubscriptionRootType (context : List GraphQLError) (schema : GraphQLSchema) :
    List GraphQLError :=
  match schema.subscriptionType with
  | none => context
  | some subscriptionType =>
    if subscriptionType.isObjectType then context
    else
      reportError context
        ("Subscription root type must be Object type if provided but got: " ++
          subscriptionType.toStr ++ ".")
        (.one (getOperationTypeNode schema subscriptionType "subscription"))

/-- The duplicate-implementation message of the type-registry walk. -/
def onlyOnceMessage (type iface : GType) : String :=
  type.nameOf ++ " must declare it implements " ++ iface.nameOf ++ " only once."

/-- The interface walk as claim C1 words it: when the interface name was
already recorded, only the duplicate diagnostic is emitted (the conformance
checker is not invoked and the record is unchanged); otherwise the name is
recorded and the conformance checker is invoked. A definition following the
claim's words, for comparison against `implementsLoop`. -/
def implementsLoopC1Spec (context : List GraphQLError) (schema : GraphQLSchema) (type : GType)
    (ifaces : List GType) (implementedTypeNames : List String) : List GraphQLError :=
  match ifaces with
  | [] => context
  | iface :: rest =>
    if implementedTypeNames.contains iface.nameOf then
      let context :=
        reportError context (onlyOnceMessage type iface)
          (.many ((getAllImplementsInterfaceNode type iface).map some))
      implementsLoopC1Spec context schema type rest implementedTypeNames
    else
      let context := validateObjectImplementsInterface context schema type iface
      implementsLoopC1Spec context schema type rest (iface.nameOf :: implementedTypeNames)

/-- The type-registry walk with the interface loop replaced by claim C1's
wording (`implementsLoopC1Spec`). -/
def validateTypesC1Spec (context : List GraphQLError) (schema : GraphQLSchema) :
    List GraphQLError :=
  schema.typeMap.foldl
    (fun context entry =>
      let type := entry.2
      let context :=
        match type with
        | .type _ => context
        | .notType repr astNode =>
            reportError context ("Expected GraphQL type but got: " ++ repr ++ ".") (.one astNode)
      match type with
      | .type t =>
          if t.isObjectType then implementsLoopC1Spec context schema t t.interfacesOf []
          else context
      | .notType _ _ => context)
    context

/-- The interface walk as the amended claim words it: when the interface
name was already recorded the duplicate diagnostic is emitted; in every case
— duplicate or first occurrence — the name is then recorded and the
conformance checker is invoked. -/
def implementsLoopC1Amended (context : List GraphQLError) (schema : GraphQLSchema)
    (type : GType) (ifaces : List GType) (implementedTypeNames : List String) :
    List GraphQLError :=
  match ifaces with
  | [] => context
  | iface :: rest =>
    if implementedTypeNames.contains iface.nameOf then
      let context :=
        reportError context (onlyOnceMessage type iface)
          (.many ((getAllImplementsInterfaceNode type iface).map some))
      let context := validateObjectImplementsInterface context schema type iface
      implementsLoopC1Amended context schema type rest (iface.nameOf :: implementedTypeNames)
    else
      let context := validateObjectImplementsInterface context schema type iface
      implementsLoopC1Amended context schema type rest (iface.nameOf :: implementedTypeNames)

/-- The type-registry walk with the interface loop written as the amended
claim words it (`implementsLoopC1Amended`). -/
def validateTypesC1Amended (context : List GraphQLError) (schema : GraphQLSchema) :
    List GraphQLError :=
  schema.typeMap.foldl
    (fun context entry =>
      let type := entry.2
      let context :=
        match type with
        | .type _ => context
        | .notType repr astNode =>
            reportError context ("Expected GraphQL type but got: " ++ repr ++ ".") (.one astNode)
      match type with
      | .type t =>
          if t.isObjectType then implementsLoopC1Amended context schema t t.interfacesOf []
          else context
      | .notType _ _ => context)
    context

/-- A schema with every slot empty. -/
def emptySchema : GraphQLSchema :=
  { queryType := none, mutationType := none, subscriptionType := none, directives := [],
    typeMap := [], astNode := none, __validationErrors := none }

/-- The built-in `String` scalar. -/
def scalarString : GType := .scalar "String"

/-- An interface `I` declaring one field `f : String`. -/
def ifaceI : GType := .iface "I" [.mk "f" scalarString []] none []

/-- An object `Obj` with no fields that declares `implements I` twice. -/
def objTwiceI : GType := .object "Obj" [] [ifaceI, ifaceI] none []

/-- A schema whose type map holds `objTwiceI`. -/
def schemaTwiceI : GraphQLSchema := { emptySchema with typeMap := [("Obj", .type objTwiceI)] }

/-- An object `Obj` with no fields that declares `implements I` three times,
with an `implements I` reference node on the primary declaration and one on
an extension. -/
def objThriceI : GType :=
  .object "Obj" [] [ifaceI, ifaceI, ifaceI]
    (some (.objectTypeDef [.namedType "I"] [])) [.objectTypeDef [.namedType "I"] []]

/-- An object `Obj` whose field `f` declares an argument `a : String!` where
interface `I`'s field `f` declares `a : String`. -/
def objFieldNonNullArg : GField := .mk "f" scalarString [.mk "a" (.nonNull scalarString)]

/-- The interface argument `a : String` of `I.f`. -/
def ifaceArgA : GArg := .mk "a" scalarString

/-- The object carrying `objFieldNonNullArg`. -/
def objWithNonNullArg : GType := .object "Obj" [objFieldNonNullArg] [ifaceI] none []

/-- A schema whose declaration node is present (no operation-type nodes). -/
def schemaWithNode : GraphQLSchema := { emptySchema with astNode := some (.schemaDef []) }

/-- An object query root with one scalar field. -/
def queryObj : GType := .object "Query" [.mk "s" scalarString []] [] none []

/-- A schema with a single Object query type containing one scalar field:
validates cleanly. -/
def validSchema : GraphQLSchema :=
  { emptySchema with queryType := some queryObj, typeMap := [("Query", .type queryObj)] }

/-- A schema producing exactly two diagnostics, in checker order: a missing
query root, then a foreign directive. -/
def schemaTwoDiag : GraphQLSchema :=
  { emptySchema with directives := [.foreign "123" none] }

/-- An object `Obj` with no fields, implementing `I`. -/
def objNoFields : GType := .object "Obj" [] [ifaceI] none []

/-- The two diagnostics `schemaTwoDiag` produces, in checker order. -/
def twoDiagErrors : List GraphQLError :=
  [⟨"Query root type must be provided.", []⟩, ⟨"Expected directive but got: 123.", []⟩]

/-- The missing-field message of the conformance checker. -/
def missingFieldMessage (iface object : GType) (fieldName : String) : String :=
  "\"" ++ iface.nameOf ++ "\" expects field \"" ++ fieldName ++ "\" but \"" ++
    object.nameOf ++ "\" does not provide it."

/-- The argument type-mismatch (invariance) message of the conformance
checker. -/
def argMismatchMessage (iface object : GType) (fieldName argName : String)
    (ifaceArgType objectArgType : GType) : String :=
  iface.nameOf ++ "." ++ fieldName ++ "(" ++ argName ++ ":) expects type \"" ++
    ifaceArgType.toStr ++ "\" but " ++ object.nameOf ++ "." ++ fieldName ++ "(" ++
    argName ++ ":) is type \"" ++ objectArgType.toStr ++ "\"."

/-- The extra-required-argument message of the conformance checker. -/
def extraArgMessage (object iface : GType) (fieldName argName : String)
    (objectArgType : GType) : String :=
  object.nameOf ++ "." ++ fieldName ++ "(" ++ argName ++ ":) is of required type \"" ++
    objectArgType.toStr ++ "\" but is not also provided by the interface " ++
    iface.nameOf ++ "." ++ fieldName ++ "."

/-- A diagnostic whose node list has no absent entries. -/
def NodesOk (e : GraphQLError) : Prop := ∀ node ∈ e.nodes, node.isSome

/-- A context transformer that only appends, and appends only diagnostics
whose node lists have no absent entries. Every checker of the pass is of
this shape. -/
def Sound (f : List GraphQLError → List GraphQLError) : Prop :=
  (∀ context, f context = context ++ f []) ∧ ∀ e ∈ f [], NodesOk e

theorem sound_id : Sound (fun context => context) :=
  ⟨fun context => by simp, fun e he => absurd he (List.not_mem_nil e)⟩

theorem sound_reportError (message : String) (nodes : NodeArg) :
    Sound (fun context => reportError context message nodes) := by
  refine ⟨fun context => by simp [reportError], ?_⟩
  intro e he
  simp only [reportError, List.nil_append, List.mem_singleton] at he
  subst he
  intro node hnode
  exact (List.mem_filter.mp hnode).2

theorem sound_comp (f g : List GraphQLError → List GraphQLError)
    (hf : Sound f) (hg : Sound g) : Sound (fun context => g (f context)) := by
  refine ⟨fun context => ?_, ?_⟩
  · show g (f context) = context ++ g (f [])
    rw [hg.1 (f context), hf.1 context, hg.1 (f []), List.append_assoc]
  · intro e he
    simp only at he
    rw [hg.1 (f [])] at he
    rcases List.mem_append.mp he with h | h
    · exact hf.2 e h
    · exact hg.2 e (by simpa using (hg.1 []) ▸ h)

theorem sound_ite (c : Bool) (f g : List GraphQLError → List GraphQLError)
    (hf : Sound f) (hg : Sound g) :
    Sound (fun context => if c then f context else g context) := by
  cases c
  · simpa using hg
  · simpa using hf

theorem sound_foldl {α : Type} (g : List GraphQLError → α → List GraphQLError)
    (hg : ∀ x, Sound (fun context => g context x)) (xs : List α) :
    Sound (fun context => xs.foldl g context) := by
  induction xs with
  | nil => simpa using sound_id
  | cons x xs ih =>
    have hstep : Sound (fun context => xs.foldl g (g context x)) :=
      sound_comp (fun context => g context x) (fun context => xs.foldl g context) (hg x) ih
    simpa [List.foldl_cons] using hstep

theorem sound_checkIfaceArg (object : GType) (objectField : GField) (iface : GType)
    (fieldName : String) (ifaceArg : GArg) :
    Sound (fun context => checkIfaceArg context object objectField iface fieldName ifaceArg) := by
  cases hfind : objectField.args.find? (fun arg => arg.name == ifaceArg.name) with
  | none =>
      simp only [checkIfaceArg, hfind]
      exact sound_reportError _ _
  | some objectArg =>
      simp only [checkIfaceArg, hfind]
      exact sound_ite _ _ _ sound_id (sound_reportError _ _)

theorem sound_checkObjectArg (object : GType) (iface : GType) (ifaceField : GField)
    (fieldName : String) (objectArg : GArg) :
    Sound (fun context => checkObjectArg context object iface ifaceField fieldName objectArg) := by
  cases hfind : ifaceField.args.find? (fun arg => arg.name == objectArg.name) with
  | none =>
      simp only [checkObjectArg, hfind]
      exact sound_ite _ _ _ (sound_reportError _ _) sound_id
  | some ifaceArg =>
      simp only [checkObjectArg, hfind]
      exact sound_id

theorem sound_checkIfaceField (schema : GraphQLSchema) (object : GType) (iface : GType)
    (ifaceField : GField) :
    Sound (fun context => checkIfaceField context schema object iface ifaceField) := by
  cases hfind : object.fieldsOf.find? (fun f => f.name == ifaceField.name) with
  | none =>
      simp only [checkIfaceField, hfind]
      exact sound_reportError _ _
  | some objectField =>
      simp only [checkIfaceField, hfind]
      exact sound_comp
        (fun context => ifaceField.args.foldl
          (fun context ifaceArg =>
            checkIfaceArg context object objectField iface ifaceField.name ifaceArg)
          (if isTypeSubTypeOf schema objectField.type ifaceField.type then context
           else
            reportError context
              (iface.nameOf ++ "." ++ ifaceField.name ++ " expects type \"" ++
                ifaceField.type.toStr ++ "\" but " ++ object.nameOf ++ "." ++ ifaceField.name ++
                " is type \"" ++ objectField.type.toStr ++ "\".")
              (.many [getFieldTypeNode iface ifaceField.name,
                getFieldTypeNode object ifaceField.name])))
        (fun context => objectField.args.foldl
          (fun context objectArg =>
            checkObjectArg context object iface ifaceField ifaceField.name objectArg)
          context)
        (sound_comp _ _
          (sound_ite _ _ _ sound_id (sound_reportError _ _))
          (sound_foldl _
            (fun ifaceArg => sound_checkIfaceArg object objectField iface ifaceField.name ifaceArg)
            ifaceField.args))
        (sound_foldl _
          (fun objectArg => sound_checkObjectArg object iface ifaceField ifaceField.name objectArg)
          objectField.args)

theorem sound_validateObjectImplementsInterface (schema : GraphQLSchema) (object : GType)
    (iface : GType) :
    Sound (fun context => validateObjectImplementsInterface context schema object iface) := by
  cases hi : iface.isInterfaceType with
  | false =>
      simp only [validateObjectImplementsInterface, hi, Bool.not_false, if_pos]
      exact sound_reportError _ _
  | true =>
      simp only [validateObjectImplementsInterface, hi, Bool.not_true, if_neg]
      exact sound_foldl _
        (fun ifaceField => sound_checkIfaceField schema object iface ifaceField)
        iface.fieldsOf

theorem sound_implementsLoop (schema : GraphQLSchema) (type : GType) (ifaces : List GType)
    (implementedTypeNames : List String) :
    Sound (fun context => implementsLoop context schema type ifaces implementedTypeNames) := by
  induction ifaces generalizing implementedTypeNames with
  | nil => simpa [implementsLoop] using sound_id
  | cons iface rest ih =>
      simp only [implementsLoop]
      exact sound_comp
        (fun context =>
          validateObjectImplementsInterface
            (if implementedTypeNames.contains iface.nameOf then
              reportError context (onlyOnceMessage type iface)
                (.many ((getAllImplementsInterfaceNode type iface).map some))
             else context)
            schema type iface)
        (fun context =>
          implementsLoop context schema type rest (iface.nameOf :: implementedTypeNames))
        (sound_comp _ _
          (sound_ite _ _ _ (sound_reportError _ _) sound_id)
          (sound_validateObjectImplementsInterface schema type iface))
        (ih (iface.nameOf :: implementedTypeNames))

theorem sound_validateTypes (schema : GraphQLSchema) :
    Sound (fun context => validateTypes context schema) := by
  simp only [validateTypes]
  refine sound_foldl _ (fun entry => ?_) schema.typeMap
  cases htv : entry.2 with
  | type t =>
      simp only [htv]
      cases ho : t.isObjectType with
      | false => simpa [ho] using sound_id
      | true => simpa [ho] using sound_implementsLoop schema t t.interfacesOf []
  | notType repr astNode =>
      simp only [htv]
      exact sound_reportError _ _

theorem sound_validateDirectives (schema : GraphQLSchema) :
    Sound (fun context => validateDirectives context schema) := by
  simp only [validateDirectives]
  refine sound_foldl _ (fun directive => ?_) schema.directives
  cases directive with
  | directive name astNode => exact sound_id
  | foreign repr astNode => exact sound_reportError _ _

theorem sound_checkQueryRootType (schema : GraphQLSchema) :
    Sound (fun context => checkQueryRootType context schema) := by
  cases hq : schema.queryType with
  | none =>
      simp only [checkQueryRootType, hq]
      exact sound_reportError _ _
  | some queryType =>
      simp only [checkQueryRootType, hq]
      exact sound_ite _ _ _ sound_id (sound_reportError _ _)

theorem sound_checkMutationRootType (schema : GraphQLSchema) :
    Sound (fun context => checkMutationRootType context schema) := by
  cases hm : schema.mutationType with
  | none =>
      simp only [checkMutationRootType, hm]
      exact sound_id
  | some mutationType =>
      simp only [checkMutationRootType, hm]
      exact sound_ite _ _ _ sound_id (sound_reportError _ _)

theorem sound_checkSubscriptionRootType (schema : GraphQLSchema) :
    Sound (fun context => checkSubscriptionRootType context schema) := by
  cases hs : schema.subscriptionType with
  | none =>
      simp only [checkSubscriptionRootType, hs]
      exact sound_id
  | some subscriptionType =>
      simp only [checkSubscriptionRootType, hs]
      exact sound_ite _ _ _ sound_id (sound_reportError _ _)

/-- The function `validateRootTypes` is, definitionally, the query, mutation and
subscription blocks run in sequence. -/
theorem validateRootTypes_eq_blocks (context : List GraphQLError) (schema : GraphQLSchema) :
    validateRootTypes context schema =
      checkSubscriptionRootType
        (checkMutationRootType (checkQueryRootType context schema) schema) schema := rfl

theorem sound_validateRootTypes (schema : GraphQLSchema) :
    Sound (fun context => validateRootTypes context schema) := by
  have h :=
    sound_comp
      (fun context =>
        checkMutationRootType (checkQueryRootType context schema) schema)
      (fun context => checkSubscriptionRootType context schema)
      (sound_comp _ _
        (sound_checkQueryRootType schema)
        (sound_checkMutationRootType schema))
      (sound_checkSubscriptionRootType schema)
  have heq : (fun context => validateRootTypes context schema) =
      (fun context =>
        checkSubscriptionRootType
          (checkMutationRootType (checkQueryRootType context schema) schema) schema) := by
    funext context
    exact validateRootTypes_eq_blocks context schema
  rw [heq]
  exact h

theorem checkQueryRootType_append (context : List GraphQLError) (schema : GraphQLSchema) :
    checkQueryRootType context schema = context ++ checkQueryRootType [] schema :=
  (sound_checkQueryRootType schema).1 context

theorem checkMutationRootType_append (context : List GraphQLError) (schema : GraphQLSchema) :
    checkMutationRootType context schema = context ++ checkMutationRootType [] schema :=
  (sound_checkMutationRootType schema).1 context

theorem checkSubscriptionRootType_append (context : List GraphQLError)
    (schema : GraphQLSchema) :
    checkSubscriptionRootType context schema =
      context ++ checkSubscriptionRootType [] schema :=
  (sound_checkSubscriptionRootType schema).1 context

theorem validateObjectImplementsInterface_append (context : List GraphQLError)
    (schema : GraphQLSchema) (object iface : GType) :
    validateObjectImplementsInterface context schema object iface =
      context ++ validateObjectImplementsInterface [] schema object iface :=
  (sound_validateObjectImplementsInterface schema object iface).1 context

theorem reportError_append (context : List GraphQLError) (message : String) (nodes : NodeArg) :
    reportError context message nodes = context ++ reportError [] message nodes :=
  (sound_reportError message nodes).1 context

theorem sound_runChecks (schema : GraphQLSchema) :
    ∀ e ∈ runChecks schema, NodesOk e := by
  have h :=
    sound_comp
      (fun context => validateDirectives (validateRootTypes context schema) schema)
      (fun context => validateTypes context schema)
      (sound_comp _ _
        (sound_validateRootTypes schema)
        (sound_validateDirectives schema))
      (sound_validateTypes schema)
  intro e he
  exact h.2 e he

/-- C10: every diagnostic produced by a validation pass carries a node list
with no absent entries — `reportError` coerces a single node argument to a
singleton list, accepts a list as is, and filters out all absent entries
before the diagnostic is constructed, and every checker of the pass reports
only through it. -/
theorem runChecks_nodes_present :
    ∀ (schema : GraphQLSchema), ∀ e ∈ runChecks schema, ∀ node ∈ e.nodes, node.isSome :=
  fun schema e he => sound_runChecks schema e he

/-- Witness for C10: on a schema whose declaration node is present the
missing-query diagnostic carries that node; on a schema with no syntax
information at all it carries the empty node list, not a null placeholder. -/
theorem runChecks_nodes_present_witness :
    runChecks schemaWithNode =
      [⟨"Query root type must be provided.", [some (ASTNode.schemaDef [])]⟩] ∧
    (some (ASTNode.schemaDef [])).isSome = true ∧
    runChecks emptySchema = [⟨"Query root type must be provided.", []⟩] := by
  refine ⟨rfl, ?_, rfl⟩
  have he : (⟨"Query root type must be provided.", [some (ASTNode.schemaDef [])]⟩ : GraphQLError) ∈
      runChecks schemaWithNode := by
    have h : runChecks schemaWithNode =
        [⟨"Query root type must be provided.", [some (ASTNode.schemaDef [])]⟩] := rfl
    rw [h]
    exact List.mem_singleton.mpr rfl
  exact runChecks_nodes_present schemaWithNode _ he _ (List.mem_singleton.mpr rfl)

/-- C7: when the query root slot is absent the query block emits exactly one
diagnostic whose message is exactly "Query root type must be provided.";
and `validateRootTypes` is the concatenation of the query, mutation and
subscription blocks, each run from an empty sink — the three checks run
independently of each other's outcomes, none is fatal, and all applicable
diagnostics are emitted in the one call. -/
theorem validateRootTypes_query_missing_independent :
    ∀ (context : List GraphQLError) (schema : GraphQLSchema),
      validateRootTypes context schema =
        context ++ checkQueryRootType [] schema ++ checkMutationRootType [] schema ++
          checkSubscriptionRootType [] schema ∧
      (schema.queryType = none →
        checkQueryRootType [] schema =
          [⟨"Query root type must be provided.", [schema.astNode].filter (·.isSome)⟩]) := by
  intro context schema
  constructor
  · rw [validateRootTypes_eq_blocks]
    rw [checkSubscriptionRootType_append, checkMutationRootType_append,
      checkQueryRootType_append]
  · intro hq
    simp [checkQueryRootType, hq, reportError]

/-- Witness for C7: the empty schema has no query root; its query block
yields exactly the one diagnostic, and the block decomposition holds. -/
theorem validateRootTypes_query_missing_witness :
    checkQueryRootType [] emptySchema = [⟨"Query root type must be provided.", []⟩] ∧
    validateRootTypes [] emptySchema =
      [] ++ checkQueryRootType [] emptySchema ++ checkMutationRootType [] emptySchema ++
        checkSubscriptionRootType [] emptySchema := by
  have h := validateRootTypes_query_missing_independent [] emptySchema
  exact ⟨(h.2 rfl).trans rfl, h.1⟩

/-- C2: a first call to `validateSchema` on a schema with an unpopulated
cache runs the root-type, directive and type-registry checks in that fixed
order against a fresh sink (`runChecks`), stores the result on the schema
and returns it; a subsequent call on the resulting schema returns the
identical stored list. For any schema whose cache slot is populated —
including with the empty list — the stored list is returned as is,
independent of every other field of the schema, so no check is re-run. -/
theorem validateSchema_memoized :
    ∀ s : GraphQLSchema,
      (s.__validationErrors = none →
        validateSchema (.schema s) =
          .ok (runChecks s, { s with __validationErrors := some (runChecks s) }) ∧
        validateSchema (.schema { s with __validationErrors := some (runChecks s) }) =
          .ok (runChecks s, { s with __validationErrors := some (runChecks s) })) ∧
      ∀ storedErrors, s.__validationErrors = some storedErrors →
        validateSchema (.schema s) = .ok (storedErrors, s) := by
  intro s
  constructor
  · intro h
    constructor
    · simp only [validateSchema, h]
      rfl
    · rfl
  · intro storedErrors h
    simp only [validateSchema, h]

/-- Witness for C2: the empty schema has an unpopulated cache; the first
call computes and stores the one missing-query diagnostic, the second call
returns the stored list; a schema with a stored empty list returns it
unchanged even though a fresh run would find a defect. -/
theorem validateSchema_memoized_witness :
    emptySchema.__validationErrors = none ∧
    validateSchema (.schema emptySchema) =
      .ok (runChecks emptySchema,
        { emptySchema with __validationErrors := some (runChecks emptySchema) }) ∧
    validateSchema (.schema { emptySchema with __validationErrors := some (runChecks emptySchema) }) =
      .ok (runChecks emptySchema,
        { emptySchema with __validationErrors := some (runChecks emptySchema) }) ∧
    runChecks emptySchema = [⟨"Query root type must be provided.", []⟩] ∧
    validateSchema (.schema { emptySchema with __validationErrors := some [] }) =
      .ok ([], { emptySchema with __validationErrors := some [] }) := by
  have h := (validateSchema_memoized emptySchema).1 rfl
  have h2 := (validateSchema_memoized { emptySchema with __validationErrors := some [] }).2 [] rfl
  exact ⟨rfl, h.1, h.2, rfl, h2⟩

/-- C8: `validateSchema` throws (returns `Except.error`) exactly on the
inputs that are not genuine `GraphQLSchema` values — an absent value, a
cross-realm look-alike, or any other value — and returns the diagnostic
list (`Except.ok`) on every genuine schema; usage errors are a thrown
failure, never an entry of a returned diagnostic list, and no content
defect of a genuine schema makes the call throw. -/
theorem validateSchema_throws_iff_not_schema :
    ∀ input : SchemaInput,
      (∃ s, input = SchemaInput.schema s) ↔
        ∃ result, validateSchema input = Except.ok result := by
  intro input
  constructor
  · rintro ⟨s, rfl⟩
    cases h : s.__validationErrors with
    | none =>
        exact ⟨(runChecks s, { s with __validationErrors := some (runChecks s) }),
          by simp only [validateSchema, h]; rfl⟩
    | some es => exact ⟨(es, s), by simp only [validateSchema, h]⟩
  · rintro ⟨result, hr⟩
    cases input with
    | schema s => exact ⟨s, rfl⟩
    | absent => simp [validateSchema] at hr
    | lookAlike repr => simp [validateSchema] at hr
    | otherValue repr => simp [validateSchema] at hr

/-- C9: `assertValidSchema` calls `validateSchema`; on a non-empty
diagnostic list it throws the diagnostics' messages joined by a blank line
(two newlines), in production order, and on an empty list it returns
normally. -/
theorem assertValidSchema_spec :
    ∀ (input : SchemaInput) (errors : List GraphQLError) (s : GraphQLSchema),
      validateSchema input = .ok (errors, s) →
      assertValidSchema input =
        (if errors.isEmpty then .ok s
         else .error (String.intercalate "\n\n" (errors.map (fun e => e.message)))) := by
  intro input errors s h
  simp only [assertValidSchema, h]
  cases errors with
  | nil => simp
  | cons e es => simp

/-- Witness for C9: a schema producing two diagnostics makes
`assertValidSchema` throw both messages joined by one blank line, in checker
order; a clean schema makes it return normally. -/
theorem assertValidSchema_spec_witness :
    validateSchema (.schema schemaTwoDiag) =
      .ok (twoDiagErrors, { schemaTwoDiag with __validationErrors := some twoDiagErrors }) ∧
    assertValidSchema (.schema schemaTwoDiag) =
      .error "Query root type must be provided.\n\nExpected directive but got: 123." ∧
    validateSchema (.schema validSchema) =
      .ok ([], { validSchema with __validationErrors := some [] }) ∧
    assertValidSchema (.schema validSchema) =
      .ok { validSchema with __validationErrors := some [] } := by
  refine ⟨rfl, ?_, rfl, ?_⟩
  · exact (assertValidSchema_spec (.schema schemaTwoDiag) twoDiagErrors
      { schemaTwoDiag with __validationErrors := some twoDiagErrors } rfl).trans rfl
  · exact (assertValidSchema_spec (.schema validSchema) []
      { validSchema with __validationErrors := some [] } rfl).trans rfl

/-- C3: when the object field declares an argument of the interface
argument's name, the mismatch diagnostic is emitted exactly when the two
argument types are not equal under `isEqualType` — argument typing is
invariant. It is strictly stricter than the covariant return-type rule: a
NonNull-wrapped type is a valid subtype of its unwrapped form under the
`isTypeSubTypeOf` oracle, yet the two are not equal, so such a pair is
diagnosed here even though the return-type rule would accept it. -/
theorem checkIfaceArg_invariant :
    ∀ (schema : GraphQLSchema) (context : List GraphQLError) (object : GType)
      (objectField : GField) (iface : GType) (fieldName : String) (ifaceArg objectArg : GArg),
      objectField.args.find? (fun arg => arg.name == ifaceArg.name) = some objectArg →
      (checkIfaceArg context object objectField iface fieldName ifaceArg =
        if isEqualType ifaceArg.type objectArg.type then context
        else
          context ++
            [⟨argMismatchMessage iface object fieldName ifaceArg.name ifaceArg.type
                objectArg.type,
              [getFieldArgTypeNode iface fieldName ifaceArg.name,
                getFieldArgTypeNode object fieldName ifaceArg.name].filter (·.isSome)⟩]) ∧
      isTypeSubTypeOf schema (.nonNull scalarString) scalarString = true ∧
      isEqualType scalarString (.nonNull scalarString) = false ∧
      isEqualType (.nonNull scalarString) scalarString = false := by
  intro schema context object objectField iface fieldName ifaceArg objectArg h
  refine ⟨?_, ?_, ?_, ?_⟩
  · simp only [checkIfaceArg, h]
    cases heq : isEqualType ifaceArg.type objectArg.type with
    | true => simp [heq]
    | false => simp [heq, reportError, argMismatchMessage]
  · simp [isTypeSubTypeOf, isEqualType, beqGType, scalarString]
  · simp [isEqualType, beqGType, scalarString]
  · simp [isEqualType, beqGType, scalarString]

/-- Witness for C3: interface argument `a : String` against object argument
`a : String!` — a strict subtype pair — is diagnosed. -/
theorem checkIfaceArg_invariant_witness :
    objFieldNonNullArg.args.find? (fun arg => arg.name == ifaceArgA.name) =
      some (GArg.mk "a" (.nonNull scalarString)) ∧
    checkIfaceArg [] objWithNonNullArg objFieldNonNullArg ifaceI "f" ifaceArgA =
      [⟨argMismatchMessage ifaceI objWithNonNullArg "f" "a" scalarString (.nonNull scalarString),
        []⟩] ∧
    isTypeSubTypeOf emptySchema (.nonNull scalarString) scalarString = true := by
  have h := checkIfaceArg_invariant emptySchema [] objWithNonNullArg objFieldNonNullArg ifaceI
    "f" ifaceArgA (GArg.mk "a" (.nonNull scalarString)) rfl
  refine ⟨rfl, ?_, h.2.1⟩
  have hne : isEqualType ifaceArgA.type (GArg.mk "a" (.nonNull scalarString)).type = false := by
    simp [isEqualType, beqGType, ifaceArgA, scalarString, GArg.type]
  rw [h.1]
  simp only [hne, Bool.false_eq_true, if_false]
  rfl

/-- C5: for an argument declared on the object field but absent from the
interface field, the diagnostic is emitted exactly when the extra argument's
type is a NonNull wrapper; a nullable extra argument produces none. -/
theorem checkObjectArg_extra_required :
    ∀ (context : List GraphQLError) (object iface : GType) (ifaceField : GField)
      (fieldName : String) (objectArg : GArg),
      ifaceField.args.find? (fun arg => arg.name == objectArg.name) = none →
      checkObjectArg context object iface ifaceField fieldName objectArg =
        context ++
          (if objectArg.type.isNonNullType then
            [⟨extraArgMessage object iface fieldName objectArg.name objectArg.type,
              [getFieldArgTypeNode object fieldName objectArg.name,
                getFieldNode iface fieldName].filter (·.isSome)⟩]
           else []) := by
  intro context object iface ifaceField fieldName objectArg h
  simp only [checkObjectArg, h]
  cases hn : objectArg.type.isNonNullType with
  | true => simp [hn, reportError, extraArgMessage]
  | false => simp [hn]

/-- Witness for C5: an extra `b : String!` yields the one diagnostic; the
same extra argument as nullable `b : String` yields none. -/
theorem checkObjectArg_extra_required_witness :
    (GField.mk "f" scalarString []).args.find?
        (fun arg => arg.name == (GArg.mk "b" (.nonNull scalarString)).name) = none ∧
    checkObjectArg [] objWithNonNullArg ifaceI (GField.mk "f" scalarString []) "f"
        (GArg.mk "b" (.nonNull scalarString)) =
      [⟨extraArgMessage objWithNonNullArg ifaceI "f" "b" (.nonNull scalarString), []⟩] ∧
    checkObjectArg [] objWithNonNullArg ifaceI (GField.mk "f" scalarString []) "f"
        (GArg.mk "b" scalarString) = [] := by
  refine ⟨rfl, ?_, ?_⟩
  · exact (checkObjectArg_extra_required [] objWithNonNullArg ifaceI
      (GField.mk "f" scalarString []) "f" (GArg.mk "b" (.nonNull scalarString)) rfl).trans rfl
  · exact (checkObjectArg_extra_required [] objWithNonNullArg ifaceI
      (GField.mk "f" scalarString []) "f" (GArg.mk "b" scalarString) rfl).trans rfl

/-- C6: when the implementing object has no field of an interface field's
name, exactly one missing-field diagnostic is appended for that field and
nothing else — neither the return-type covariance check nor any argument
check runs for it — and the walk over the interface's remaining fields
continues. -/
theorem checkIfaceField_missing_field :
    ∀ (context : List GraphQLError) (schema : GraphQLSchema) (object iface : GType)
      (ifaceField : GField),
      object.fieldsOf.find? (fun f => f.name == ifaceField.name) = none →
      (checkIfaceField context schema object iface ifaceField =
        context ++
          [⟨missingFieldMessage iface object ifaceField.name,
            [getFieldNode iface ifaceField.name, object.astNodeOf].filter (·.isSome)⟩]) ∧
      ∀ fs1 fs2 : List GField,
        (fs1 ++ ifaceField :: fs2).foldl
            (fun c f => checkIfaceField c schema object iface f) context =
          fs2.foldl (fun c f => checkIfaceField c schema object iface f)
            (fs1.foldl (fun c f => checkIfaceField c schema object iface f) context ++
              [⟨missingFieldMessage iface object ifaceField.name,
                [getFieldNode iface ifaceField.name, object.astNodeOf].filter (·.isSome)⟩]) := by
  intro context schema object iface ifaceField h
  have h1 : ∀ c : List GraphQLError,
      checkIfaceField c schema object iface ifaceField =
        c ++
          [⟨missingFieldMessage iface object ifaceField.name,
            [getFieldNode iface ifaceField.name, object.astNodeOf].filter (·.isSome)⟩] := by
    intro c
    simp [checkIfaceField, h, reportError, missingFieldMessage]
  refine ⟨h1 context, ?_⟩
  intro fs1 fs2
  rw [List.foldl_append, List.foldl_cons, h1]

theorem filter_isSome_map_some (l : List ASTNode) :
    (l.map some).filter (fun x => x.isSome) = l.map some := by
  induction l with
  | nil => rfl
  | cons x xs ih => simp [ih]

theorem implementsLoop_replicate_seen (schema : GraphQLSchema) (type iface : GType) :
    ∀ (n : ℕ) (context : List GraphQLError) (names : List String),
      names.contains iface.nameOf = true →
      implementsLoop context schema type (List.replicate n iface) names =
        context ++
          (List.replicate n
            (⟨onlyOnceMessage type iface,
                (getAllImplementsInterfaceNode type iface).map some⟩ ::
              validateObjectImplementsInterface [] schema type iface)).flatten := by
  intro n
  induction n with
  | zero =>
      intro context names h
      simp [implementsLoop]
  | succ n ih =>
      intro context names h
      rw [List.replicate_succ]
      simp only [implementsLoop, h, if_true]
      rw [ih _ (iface.nameOf :: names) (by simp)]
      rw [validateObjectImplementsInterface_append, reportError_append]
      simp [reportError, filter_isSome_map_some, List.replicate_succ, onlyOnceMessage]

theorem filter_flatten_replicate (p : GraphQLError → Bool) (dupE : GraphQLError)
    (chk : List GraphQLError) (hd : p dupE = true) (hc : ∀ e ∈ chk, p e = false) :
    ∀ m : ℕ, ((List.replicate m (dupE :: chk)).flatten).filter p = List.replicate m dupE := by
  have hchk0 : chk.filter p = [] := by
    rw [List.filter_eq_nil_iff]
    intro e he
    simp [hc e he]
  intro m
  induction m with
  | zero => rfl
  | succ m ih =>
      simp [List.replicate_succ, List.filter_append, List.filter_cons, hd, hchk0, ih]

theorem getAll_foldl_mem (iface : GType) :
    ∀ (nodes : List (Option ASTNode)) (acc : List ASTNode) (node : ASTNode),
      node ∈ nodes.foldl
          (fun implementsNodes astNode =>
            match astNode with
            | some a =>
              match a.interfacesOf with
              | some ifs =>
                  implementsNodes ++
                    ifs.filter (fun nd => nd.nameValueOf == some iface.nameOf)
              | none => implementsNodes
            | none => implementsNodes)
          acc ↔
        node ∈ acc ∨ ∃ a, some a ∈ nodes ∧ ∃ ifs, a.interfacesOf = some ifs ∧ node ∈ ifs ∧
          node.nameValueOf = some iface.nameOf := by
  intro nodes
  induction nodes with
  | nil =>
      intro acc node
      simp
  | cons x xs ih =>
      intro acc node
      rw [List.foldl_cons, ih]
      cases x with
      | none => simp
      | some a =>
          cases hif : a.interfacesOf with
          | none =>
              simp only [hif, List.mem_cons, Option.some.injEq]
              constructor
              · rintro (h | ⟨b, hb, hrest⟩)
                · exact Or.inl h
                · exact Or.inr ⟨b, Or.inr hb, hrest⟩
              · rintro (h | ⟨b, (rfl | hb), hrest⟩)
                · exact Or.inl h
                · rcases hrest with ⟨ifs, hifs, _⟩
                  rw [hif] at hifs
                  cases hifs
                · exact Or.inr ⟨b, hb, hrest⟩
          | some ifs =>
              simp only [hif, List.mem_append, List.mem_filter, List.mem_cons,
                Option.some.injEq, beq_iff_eq]
              constructor
              · rintro ((h | ⟨hmem, hname⟩) | ⟨b, hb, hrest⟩)
                · exact Or.inl h
                · exact Or.inr ⟨a, Or.inl rfl, ifs, hif, hmem, hname⟩
                · exact Or.inr ⟨b, Or.inr hb, hrest⟩
              · rintro (h | ⟨b, (rfl | hb), hrest⟩)
                · exact Or.inl (Or.inl h)
                · rcases hrest with ⟨ifs2, hifs2, hmem2, hname2⟩
                  rw [hif] at hifs2
                  cases hifs2
                  exact Or.inl (Or.inr ⟨hmem2, hname2⟩)
                · exact Or.inr ⟨b, hb, hrest⟩

theorem getAllImplementsInterfaceNode_mem (type iface : GType) (node : ASTNode) :
    node ∈ getAllImplementsInterfaceNode type iface ↔
      ∃ a, (a ∈ type.astNodeOf.toList ∨ a ∈ type.extensionASTNodesOf) ∧
        ∃ ifs, a.interfacesOf = some ifs ∧ node ∈ ifs ∧
          node.nameValueOf = some iface.nameOf := by
  unfold getAllImplementsInterfaceNode
  rw [getAll_foldl_mem]
  simp only [List.not_mem_nil, false_or, List.mem_cons, List.mem_map]
  constructor
  · rintro ⟨a, (ha | ⟨b, hb, hba⟩), hrest⟩
    · refine ⟨a, Or.inl ?_, hrest⟩
      simp only [Option.mem_toList, Option.mem_def]
      exact ha.symm
    · cases hba
      exact ⟨a, Or.inr hb, hrest⟩
  · rintro ⟨a, (ha | ha), hrest⟩
    · refine ⟨a, Or.inl ?_, hrest⟩
      simp only [Option.mem_toList, Option.mem_def] at ha
      exact ha.symm
    · exact ⟨a, Or.inr ⟨a, ha, rfl⟩, hrest⟩

/-- Witness for C6: `Obj` lacks interface field `f`; one missing-field
diagnostic, and the walk resumes on the remaining (empty) field list. -/
theorem checkIfaceField_missing_field_witness :
    objNoFields.fieldsOf.find?
        (fun f => f.name == (GField.mk "f" scalarString []).name) = none ∧
    checkIfaceField [] emptySchema objNoFields ifaceI (GField.mk "f" scalarString []) =
      [⟨missingFieldMessage ifaceI objNoFields "f", []⟩] := by
  refine ⟨rfl, ?_⟩
  exact ((checkIfaceField_missing_field [] emptySchema objNoFields ifaceI
    (GField.mk "f" scalarString []) rfl).1).trans rfl

/-- C4: when an Object type's interface list is the same interface repeated
n ≥ 2 times, the walk emits exactly n − 1 duplicate-implementation
diagnostics — one per occurrence beyond the first — each carrying the full
node list of `getAllImplementsInterfaceNode`, which holds precisely the
interface-reference syntax nodes of that name across the primary
declaration and all extensions. (The hypothesis only separates the
conformance checker's own messages from the duplicate message, so that the
count is well defined.) -/
theorem implementsLoop_duplicate_count :
    ∀ (schema : GraphQLSchema) (type iface : GType) (n : ℕ),
      2 ≤ n →
      (∀ e ∈ validateObjectImplementsInterface [] schema type iface,
        e.message ≠ onlyOnceMessage type iface) →
      (implementsLoop [] schema type (List.replicate n iface) []).filter
          (fun e => e.message == onlyOnceMessage type iface) =
        List.replicate (n - 1)
          ⟨onlyOnceMessage type iface, (getAllImplementsInterfaceNode type iface).map some⟩ ∧
      ∀ node : ASTNode,
        node ∈ getAllImplementsInterfaceNode type iface ↔
          ∃ a, (a ∈ type.astNodeOf.toList ∨ a ∈ type.extensionASTNodesOf) ∧
            ∃ ifs, a.interfacesOf = some ifs ∧ node ∈ ifs ∧
              node.nameValueOf = some iface.nameOf := by
  intro schema type iface n hn hchk
  refine ⟨?_, getAllImplementsInterfaceNode_mem type iface⟩
  cases n with
  | zero => omega
  | succ m =>
      rw [List.replicate_succ]
      simp only [implementsLoop]
      have hc : (([] : List String).contains iface.nameOf) = false := rfl
      simp only [hc, Bool.false_eq_true, if_false]
      rw [implementsLoop_replicate_seen schema type iface m _ (iface.nameOf :: []) (by simp)]
      rw [validateObjectImplementsInterface_append ([] : List GraphQLError)]
      rw [List.filter_append, List.filter_append]
      have hzero : (([] : List GraphQLError)).filter
          (fun e => e.message == onlyOnceMessage type iface) = [] := rfl
      have hchk0 : (validateObjectImplementsInterface [] schema type iface).filter
          (fun e => e.message == onlyOnceMessage type iface) = [] := by
        rw [List.filter_eq_nil_iff]
        intro e he
        simp [hchk e he]
      rw [hzero, hchk0]
      rw [filter_flatten_replicate _ _ _ (by simp)
        (fun e he => by simp [hchk e he]) m]
      simp

/-- Witness for C4: `Obj` declares `implements I` three times; exactly two
duplicate diagnostics result, each attached to both reference nodes (one on
the primary declaration, one on the extension). -/
theorem implementsLoop_duplicate_count_witness :
    2 ≤ 3 ∧
    (∀ e ∈ validateObjectImplementsInterface [] emptySchema objThriceI ifaceI,
      e.message ≠ onlyOnceMessage objThriceI ifaceI) ∧
    (implementsLoop [] emptySchema objThriceI (List.replicate 3 ifaceI) []).filter
        (fun e => e.message == onlyOnceMessage objThriceI ifaceI) =
      List.replicate 2
        ⟨onlyOnceMessage objThriceI ifaceI,
          (getAllImplementsInterfaceNode objThriceI ifaceI).map some⟩ ∧
    getAllImplementsInterfaceNode objThriceI ifaceI =
      [.namedType "I", .namedType "I"] := by
  refine ⟨by decide, ?_, ?_, rfl⟩
  · intro e he hmsg
    have : e.message = missingFieldMessage ifaceI objThriceI "f" := by
      have hv : validateObjectImplementsInterface [] emptySchema objThriceI ifaceI =
          [⟨missingFieldMessage ifaceI objThriceI "f",
            [ASTNode.objectTypeDef [.namedType "I"] []]⟩] := rfl
      rw [hv] at he
      rw [List.mem_singleton.mp he]
    rw [this] at hmsg
    simp [missingFieldMessage, onlyOnceMessage, ifaceI, objThriceI, GType.nameOf] at hmsg
  · exact (implementsLoop_duplicate_count emptySchema objThriceI ifaceI 3 (by decide)
      (fun e he hmsg => by
        have hv : validateObjectImplementsInterface [] emptySchema objThriceI ifaceI =
            [⟨missingFieldMessage ifaceI objThriceI "f",
              [ASTNode.objectTypeDef [.namedType "I"] []]⟩] := rfl
        rw [hv] at he
        rw [List.mem_singleton.mp he] at hmsg
        simp [missingFieldMessage, onlyOnceMessage, ifaceI, objThriceI, GType.nameOf] at hmsg)).1

/-- Counterexample to C1 as stated: on an object declaring `implements I`
twice where `I`'s field `f` is missing, the walk emits the conformance
checker's missing-field diagnostic for the duplicate occurrence as well —
the message list is [missing, only-once, missing] — whereas a walk following
the claim's words (`validateTypesC1Spec`, conformance invoked only on first
occurrences) yields [missing, only-once]. The two runs differ. -/
theorem validateTypes_C1_counterexample :
    (validateTypes [] schemaTwiceI).map (fun e => e.message) =
      [missingFieldMessage ifaceI objTwiceI "f", onlyOnceMessage objTwiceI ifaceI,
        missingFieldMessage ifaceI objTwiceI "f"] ∧
    (validateTypesC1Spec [] schemaTwiceI).map (fun e => e.message) =
      [missingFieldMessage ifaceI objTwiceI "f", onlyOnceMessage objTwiceI ifaceI] ∧
    validateTypes [] schemaTwiceI ≠ validateTypesC1Spec [] schemaTwiceI := by
  refine ⟨rfl, rfl, ?_⟩
  intro h
  have h3 := congrArg (fun l => (l.map (fun e : GraphQLError => e.message)).length) h
  simp only at h3
  have h1 : ((validateTypes [] schemaTwiceI).map (fun e => e.message)).length = 3 := rfl
  have h2 : ((validateTypesC1Spec [] schemaTwiceI).map (fun e => e.message)).length = 2 := rfl
  rw [h1, h2] at h3
  cases h3

/-- C1 amended: for every Object type in the type map and every implemented
interface reference, a duplicate diagnostic is emitted when the interface
name was already recorded; in every case — first occurrence or duplicate —
the name is then recorded and the Interface Conformance Checker is invoked,
so the conformance check runs for duplicate occurrences as well. The walk
equals `validateTypesC1Amended`, the definition following the amended
wording, on all inputs. -/
theorem validateTypes_C1_amended :
    (∀ (context : List GraphQLError) (schema : GraphQLSchema) (type : GType)
        (ifaces : List GType) (implementedTypeNames : List String),
      implementsLoop context schema type ifaces implementedTypeNames =
        implementsLoopC1Amended context schema type ifaces implementedTypeNames) ∧
    ∀ (context : List GraphQLError) (schema : GraphQLSchema),
      validateTypes context schema = validateTypesC1Amended context schema := by
  have hloop : ∀ (ifaces : List GType) (context : List GraphQLError)
      (schema : GraphQLSchema) (type : GType) (implementedTypeNames : List String),
      implementsLoop context schema type ifaces implementedTypeNames =
        implementsLoopC1Amended context schema type ifaces implementedTypeNames := by
    intro ifaces
    induction ifaces with
    | nil =>
        intro context schema type implementedTypeNames
        rfl
    | cons iface rest ih =>
        intro context schema type implementedTypeNames
        simp only [implementsLoop, implementsLoopC1Amended]
        cases h : implementedTypeNames.contains iface.nameOf with
        | true => simp [h, ih, onlyOnceMessage]
        | false => simp [h, ih, onlyOnceMessage]
  refine ⟨fun context schema type ifaces names => hloop ifaces context schema type names, ?_⟩
  intro context schema
  simp only [validateTypes, validateTypesC1Amended]
  apply List.foldl_ext
  intro acc entry hentry
  cases htv : entry.2 with
  | type t => simp [htv, hloop]
  | notType repr astNode => simp [htv]

end GraphQLValidate
